import Mathlib

/-!
Verification of the rPPG heart-rate extraction core
(`src/api/ml_api/processors/rppg.py`, class `RPPGProcessor`).

Modelling conventions:
* Python floats are modelled as exact rationals (`ℚ`) up to the point where
  the pipeline becomes genuinely irrational (the unit-variance normalisation
  divides by a square root); from there values live in `ℝ`.
* The three numerical library kernels whose values the claims never depend
  on — `scipy.signal.butter` (coefficient design), `scipy.signal.filtfilt`
  (zero-phase filtering) and the magnitude of `numpy.fft.rfft` — are taken
  as parameters (`butterBA`, `filtfilt`, `rfftAbs`); every theorem below is
  proved for all values of these parameters.  Their *raise* conditions,
  which are documented scipy behaviour and which the error-handling claims
  do depend on, are modelled explicitly inside `process`.
* Exceptions escaping `process` are modelled by `Except`: `.error (e, s)`
  means the Python call raises `e` leaving the processor in state `s`
  (every raising call in `process` — the `t[0]` indexing, the nyquist
  division, `butter`, `filtfilt` — occurs before any attribute assignment,
  so the carried state is the entry state); `.ok (r, s)` means it returns
  `r` (an optional BPM value) leaving the processor in state `s`.
-/

namespace Rppg

/-- Python exceptions that the pipeline can raise. -/
inductive PyErr where
  | valueError
  | indexError
  | zeroDivisionError
deriving DecidableEq, Repr

/-- State of `RPPGProcessor` (its `__init__` fields).  The configuration
integers `fps` and `buffer_size` are naturals, matching every construction
site in the repository (`fps=30`, `buffer_size=300` / `1000`).
`latest_filtered_samples` is an `Option` because the Python attribute does
not exist until the first `process()` call that reaches the filtering
stage assigns it. -/
structure RPPGProcessor where
  fps : ℕ
  buffer_size : ℕ
  raw_signal : List ℚ
  timestamps : List ℚ
  filtered_signal : List ℚ
  last_snr : ℝ
  low_cut : ℚ
  high_cut : ℚ
  latest_filtered_samples : Option (List ℝ)

/-- `RPPGProcessor.__init__`: empty buffers, `last_snr = 0.0`,
`low_cut = 0.75`, `high_cut = 3.0`, and no filtered-samples attribute. -/
def init (fps buffer_size : ℕ) : RPPGProcessor :=
  { fps := fps
    buffer_size := buffer_size
    raw_signal := []
    timestamps := []
    filtered_signal := []
    last_snr := 0
    low_cut := 3/4
    high_cut := 3
    latest_filtered_samples := none }

/-- `add_sample(val, timestamp)`: append to both lists, then if the length
exceeds `buffer_size` pop the front element of each (`list.pop(0)`). -/
def add_sample (s : RPPGProcessor) (val timestamp : ℚ) : RPPGProcessor :=
  if (s.raw_signal ++ [val]).length > s.buffer_size then
    { s with raw_signal := (s.raw_signal ++ [val]).tail
             timestamps := (s.timestamps ++ [timestamp]).tail }
  else
    { s with raw_signal := s.raw_signal ++ [val]
             timestamps := s.timestamps ++ [timestamp] }

/-- Feeding a whole list of `(value, timestamp)` pairs through `add_sample`. -/
def feed (s : RPPGProcessor) (l : List (ℚ × ℚ)) : RPPGProcessor :=
  l.foldl (fun a p => add_sample a p.1 p.2) s

/-- Python `int(q)` on a float: truncation toward zero. -/
def pyInt (q : ℚ) : ℤ :=
  if 0 ≤ q then ⌊q⌋ else ⌈q⌉

/-- Line 41: `t = (t - t[0]) / 1000.0`, the timestamps normalised to start
at 0 and converted from milliseconds to seconds. -/
def tNorm (s : RPPGProcessor) : List ℚ :=
  s.timestamps.map (fun x => (x - s.timestamps.headI) / 1000)

/-- The last normalised timestamp `t[-1]` (0 for an empty list; `process`
only evaluates it behind a non-emptiness guard). -/
def tLastOf (s : RPPGProcessor) : ℚ :=
  (tNorm s).getLastD 0

/-- Line 44: `num_samples = int(t[-1] * self.fps)`. -/
def numSamplesOf (s : RPPGProcessor) : ℤ :=
  pyInt (tLastOf s * s.fps)

/-- `np.linspace(0, T, n)`: `n` evenly spaced points from `0` to `T`.
For `n = 1` the rational division by `n - 1 = 0` yields `0`, matching
`np.linspace(0, T, 1) = [0.0]`. -/
def linspace (T : ℚ) (n : ℕ) : List ℚ :=
  (List.range n).map (fun i : ℕ => T * (i : ℚ) / ((n : ℚ) - 1))

/-- Line 48: `even_times = np.linspace(0, t[-1], num_samples)`. -/
def evenTimesOf (s : RPPGProcessor) : List ℚ :=
  linspace (tLastOf s) (numSamplesOf s).toNat

/-- `np.interp(x, xp, fp)` at one point, over the zipped list of
`(xp, fp)` pairs, for ascending `xp`: clamp to the end values outside the
range, piecewise-linear inside. -/
def interpPt (x : ℚ) : List (ℚ × ℚ) → ℚ
  | [] => 0
  | [p] => p.2
  | p :: q :: r =>
    if x ≤ p.1 then p.2
    else if x ≤ q.1 then p.2 + (q.2 - p.2) * (x - p.1) / (q.1 - p.1)
    else interpPt x (q :: r)

/-- Line 52: `resampled_signal = np.interp(even_times, t, y)`. -/
def resampledOf (s : RPPGProcessor) : List ℚ :=
  (evenTimesOf s).map (fun x => interpPt x ((tNorm s).zip s.raw_signal))

/-- Sum of the regressor indices `0, 1, …, n-1` used by the linear
least-squares detrend. -/
def sIdx (n : ℕ) : ℚ :=
  ∑ i in Finset.range n, (i : ℚ)

/-- Sum of squared regressor indices. -/
def sIdxSq (n : ℕ) : ℚ :=
  ∑ i in Finset.range n, ((i : ℚ)) ^ 2

/-- Sum of the signal values. -/
def sVal (y : List ℚ) : ℚ :=
  ∑ i in Finset.range y.length, y.getD i 0

/-- Sum of index-weighted signal values. -/
def sIdxVal (y : List ℚ) : ℚ :=
  ∑ i in Finset.range y.length, (i : ℚ) * y.getD i 0

/-- Least-squares slope of the best-fit line through `(i, y i)`. -/
def lsSlope (y : List ℚ) : ℚ :=
  ((y.length : ℚ) * sIdxVal y - sIdx y.length * sVal y) /
    ((y.length : ℚ) * sIdxSq y.length - (sIdx y.length) ^ 2)

/-- Least-squares intercept of the best-fit line through `(i, y i)`. -/
def lsInter (y : List ℚ) : ℚ :=
  (sVal y - lsSlope y * sIdx y.length) / (y.length : ℚ)

/-- Line 58: `scipy.signal.detrend(x)` with the default linear type —
subtract the least-squares best-fit line.  (The residual of a linear
least-squares fit is invariant under affine rescaling of the regressor, so
using indices `0, …, n-1` as the regressor is exact.) -/
def detrend (y : List ℚ) : List ℚ :=
  (List.range y.length).map (fun i => y.getD i 0 - (lsSlope y * (i : ℚ) + lsInter y))

/-- Line 58 applied to the resampled series. -/
def detrendedOf (s : RPPGProcessor) : List ℚ :=
  detrend (resampledOf s)

/-- `np.mean`: sum over length (0 for the empty list, `0/0 = 0`). -/
def meanQ (y : List ℚ) : ℚ :=
  y.sum / y.length

/-- Population variance, so that `np.std y = Real.sqrt (varQ y)`. -/
def varQ (y : List ℚ) : ℚ :=
  (y.map (fun v => (v - meanQ y) ^ 2)).sum / y.length

/-- `np.std`: square root of the population variance. -/
noncomputable def stdOf (y : List ℚ) : ℝ :=
  Real.sqrt ((varQ y : ℝ))

/-- Line 69: `low = self.low_cut / nyquist` with `nyquist = 0.5 * fps`. -/
def lowOf (s : RPPGProcessor) : ℚ :=
  s.low_cut / ((s.fps : ℚ) / 2)

/-- Line 70: `high = self.high_cut / nyquist`. -/
def highOf (s : RPPGProcessor) : ℚ :=
  s.high_cut / ((s.fps : ℚ) / 2)

/-- Line 65: `normalized = (detrended - mean_val) / std_val`. -/
noncomputable def normalizedOf (s : RPPGProcessor) : List ℝ :=
  (detrendedOf s).map
    (fun v : ℚ => ((v : ℝ) - ((meanQ (detrendedOf s) : ℚ) : ℝ)) / stdOf (detrendedOf s))

/-- `np.fft.rfftfreq(n, d = 1/fps)`: the `n/2 + 1` nonnegative FFT bin
frequencies `k * fps / n`. -/
def rfftfreq (n : ℕ) (fps : ℕ) : List ℚ :=
  (List.range (n / 2 + 1)).map (fun k : ℕ => (k : ℚ) * fps / n)

/-- Helper for `np.argmax`: scan the remaining list `l` starting at
position `k`, keeping the best `(index, value)` seen so far and updating
only on a strict increase (so ties resolve to the first occurrence). -/
noncomputable def amaxAux (l : List ℝ) (k : ℕ) (best : ℕ × ℝ) : ℕ × ℝ :=
  match l with
  | [] => best
  | x :: xs =>
    if best.2 < x then amaxAux xs (k + 1) (k, x) else amaxAux xs (k + 1) best

/-- `np.argmax`: index of the first maximal element (0 on the empty list,
where numpy would raise; `process` only calls it behind a guard). -/
noncomputable def argmaxIdx (l : List ℝ) : ℕ :=
  match l with
  | [] => 0
  | x :: xs => (amaxAux xs 1 (0, x)).1

section Kernels

variable (butterBA : ℚ → ℚ → List ℝ × List ℝ)
variable (filtfilt : List ℝ → List ℝ → List ℝ → List ℝ)
variable (rfftAbs : List ℝ → List ℝ)

/-- Lines 71–72: `b, a = butter(2, [low, high], btype='band')` followed by
`filtered = filtfilt(b, a, normalized)`, with the two scipy kernels as
parameters. -/
noncomputable def filteredOf (s : RPPGProcessor) : List ℝ :=
  filtfilt (butterBA (lowOf s) (highOf s)).1 (butterBA (lowOf s) (highOf s)).2
    (normalizedOf s)

/-- Line 81: `magnitude = np.abs(np.fft.rfft(filtered))`, with the
magnitude kernel as a parameter. -/
noncomputable def magsOf (s : RPPGProcessor) : List ℝ :=
  rfftAbs (filteredOf butterBA filtfilt s)

/-- Line 80: `freqs = np.fft.rfftfreq(n, d=1/self.fps)` with
`n = len(filtered)`. -/
noncomputable def freqsOf (s : RPPGProcessor) : List ℚ :=
  rfftfreq (filteredOf butterBA filtfilt s).length s.fps

/-- Lines 85–87: the frequency/magnitude pairs whose frequency lies in
`[self.low_cut, self.high_cut]` (the boolean mask applied to both arrays). -/
noncomputable def validOf (s : RPPGProcessor) : List (ℚ × ℝ) :=
  ((freqsOf butterBA filtfilt s).zip (magsOf butterBA filtfilt rfftAbs s)).filter
    (fun p => decide (s.low_cut ≤ p.1) && decide (p.1 ≤ s.high_cut))

/-- Line 92: `peak_idx = np.argmax(valid_mags)`. -/
noncomputable def peakIdxOf (s : RPPGProcessor) : ℕ :=
  argmaxIdx ((validOf butterBA filtfilt rfftAbs s).map Prod.snd)

/-- Line 93: `peak_freq = valid_freqs[peak_idx]`. -/
noncomputable def peakFreqOf (s : RPPGProcessor) : ℚ :=
  ((validOf butterBA filtfilt rfftAbs s).getD
    (peakIdxOf butterBA filtfilt rfftAbs s) (0, 0)).1

/-- Line 97: `power = magnitude ** 2`. -/
noncomputable def powerOf (s : RPPGProcessor) : List ℝ :=
  (magsOf butterBA filtfilt rfftAbs s).map (fun m => m ^ 2)

/-- Line 98: `total_power = np.sum(power)`. -/
noncomputable def totalPowerOf (s : RPPGProcessor) : ℝ :=
  (powerOf butterBA filtfilt rfftAbs s).sum

/-- Line 101: `full_peak_idx = np.where(freqs == peak_freq)[0][0]`, the
first index of `peak_freq` in the full frequency array. -/
noncomputable def fullPeakIdxOf (s : RPPGProcessor) : ℕ :=
  (freqsOf butterBA filtfilt s).findIdx
    (fun q => decide (q = peakFreqOf butterBA filtfilt rfftAbs s))

/-- Lines 102–104: `signal_power = np.sum(power[start:end])` with
`start = max(0, full_peak_idx - 2)` and `end = min(len(power),
full_peak_idx + 3)` (truncated natural subtraction is exactly the
`max(0, ·)`). -/
noncomputable def signalPowerOf (s : RPPGProcessor) : ℝ :=
  (((powerOf butterBA filtfilt rfftAbs s).take
      (min (powerOf butterBA filtfilt rfftAbs s).length
        (fullPeakIdxOf butterBA filtfilt rfftAbs s + 3))).drop
    (fullPeakIdxOf butterBA filtfilt rfftAbs s - 2)).sum

open Classical in
/-- Line 106: `last_snr = signal_power / (total_power - signal_power) if
(total_power - signal_power) > 0 else 0.0`. -/
noncomputable def snrOf (s : RPPGProcessor) : ℝ :=
  if 0 < totalPowerOf butterBA filtfilt rfftAbs s - signalPowerOf butterBA filtfilt rfftAbs s then
    signalPowerOf butterBA filtfilt rfftAbs s /
      (totalPowerOf butterBA filtfilt rfftAbs s - signalPowerOf butterBA filtfilt rfftAbs s)
  else 0

/-- Lines 75–76: the state after the filtering stage has stored the
filtered samples and reset `last_snr` to `0.0`. -/
noncomputable def afterFilterState (s : RPPGProcessor) : RPPGProcessor :=
  { s with
    latest_filtered_samples := some (filteredOf butterBA filtfilt s)
    last_snr := 0 }

/-- The state after the SNR assignment of line 106. -/
noncomputable def afterSpectralState (s : RPPGProcessor) : RPPGProcessor :=
  { s with
    latest_filtered_samples := some (filteredOf butterBA filtfilt s)
    last_snr := snrOf butterBA filtfilt rfftAbs s }

/-- `RPPGProcessor.process()` (lines 27–109), flattened into its guard
chain.  Each guard is taken in source order:
1.  line 32: fewer than `fps * 3` samples → `None`;
2.  line 41: `t[0]` on an empty timestamp array → uncaught `IndexError`;
3.  lines 44–46: `num_samples < 10` → `None`;
4.  lines 51–55: `np.interp` raises `ValueError` when `len(t) != len(y)`
    — the one exception the code catches (`try/except` → `None`);
5.  lines 60–64: zero standard deviation (equivalently zero variance,
    see `stdOf_eq_zero_iff`) → `None`;
6.  line 69: `low = self.low_cut / nyquist` with `nyquist == 0` →
    uncaught `ZeroDivisionError`;
7.  line 71: `butter` validates its digital critical frequencies and
    raises `ValueError` unless `0 < low` and `high < 1`;
8.  line 72: `filtfilt` with the default `padlen = 3 * max(len(a), len(b))
    = 15` (an order-2 band-pass design has 5 coefficients) raises
    `ValueError` unless `len(x) > 15`;
9.  lines 89–90: no frequency bin in `[low_cut, high_cut]` → `None`, with
    the filtered samples stored and `last_snr = 0.0` (lines 75–76);
10. otherwise lines 92–109: `bpm = peak_freq * 60.0` with the SNR stored.

A raised exception carries the processor state observable after the raise:
all four raising calls happen before any attribute assignment (the first
assignment is line 75), so that state is the entry state. -/
noncomputable def process (s : RPPGProcessor) :
    Except (PyErr × RPPGProcessor) (Option ℚ × RPPGProcessor) :=
  if s.raw_signal.length < s.fps * 3 then .ok (none, s)
  else if s.timestamps = [] then .error (.indexError, s)
  else if numSamplesOf s < 10 then .ok (none, s)
  else if s.timestamps.length ≠ s.raw_signal.length then .ok (none, s)
  else if varQ (detrendedOf s) = 0 then .ok (none, s)
  else if (s.fps : ℚ) / 2 = 0 then .error (.zeroDivisionError, s)
  else if ¬ (0 < lowOf s ∧ highOf s < 1) then .error (.valueError, s)
  else if (normalizedOf s).length ≤ 15 then .error (.valueError, s)
  else if (validOf butterBA filtfilt rfftAbs s).length = 0 then
    .ok (none, afterFilterState butterBA filtfilt s)
  else
    .ok (some (peakFreqOf butterBA filtfilt rfftAbs s * 60),
      afterSpectralState butterBA filtfilt rfftAbs s)

end Kernels

/-- Trivial stand-in coefficient kernel used to instantiate the
parameters in closed statements. -/
def zeroBA : ℚ → ℚ → List ℝ × List ℝ := fun _ _ => ([], [])

/-- Identity stand-in for the filtering kernel. -/
def idFF : List ℝ → List ℝ → List ℝ → List ℝ := fun _ _ x => x

/-- Identity stand-in for the FFT magnitude kernel. -/
def idAbs : List ℝ → List ℝ := fun x => x

/-- Empty-output stand-in for the filtering kernel, used to realise an
empty in-band bin set in closed statements. -/
def nilFF : List ℝ → List ℝ → List ℝ → List ℝ := fun _ _ _ => []

/-! Ring-buffer lemmas. -/

lemma add_sample_eq (s : RPPGProcessor) (v t : ℚ) :
    (add_sample s v t).raw_signal =
      (if (s.raw_signal ++ [v]).length > s.buffer_size
        then (s.raw_signal ++ [v]).tail else s.raw_signal ++ [v]) ∧
    (add_sample s v t).timestamps =
      (if (s.raw_signal ++ [v]).length > s.buffer_size
        then (s.timestamps ++ [t]).tail else s.timestamps ++ [t]) := by
  unfold add_sample
  split_ifs <;> simp

lemma add_sample_config (s : RPPGProcessor) (v t : ℚ) :
    (add_sample s v t).fps = s.fps ∧
    (add_sample s v t).buffer_size = s.buffer_size ∧
    (add_sample s v t).low_cut = s.low_cut ∧
    (add_sample s v t).high_cut = s.high_cut ∧
    (add_sample s v t).last_snr = s.last_snr ∧
    (add_sample s v t).latest_filtered_samples = s.latest_filtered_samples := by
  unfold add_sample
  split_ifs <;> simp

lemma feed_config (l : List (ℚ × ℚ)) : ∀ s : RPPGProcessor,
    (feed s l).fps = s.fps ∧
    (feed s l).buffer_size = s.buffer_size ∧
    (feed s l).low_cut = s.low_cut ∧
    (feed s l).high_cut = s.high_cut ∧
    (feed s l).last_snr = s.last_snr ∧
    (feed s l).latest_filtered_samples = s.latest_filtered_samples := by
  induction l with
  | nil => intro s; simp [feed]
  | cons p l ih =>
    intro s
    have hstep := add_sample_config s p.1 p.2
    have : feed s (p :: l) = feed (add_sample s p.1 p.2) l := by
      simp [feed]
    rw [this]
    obtain ⟨h1, h2, h3, h4, h5, h6⟩ := ih (add_sample s p.1 p.2)
    exact ⟨by rw [h1, hstep.1], by rw [h2, hstep.2.1], by rw [h3, hstep.2.2.1],
      by rw [h4, hstep.2.2.2.1], by rw [h5, hstep.2.2.2.2.1],
      by rw [h6, hstep.2.2.2.2.2]⟩

lemma feed_append (s : RPPGProcessor) (l : List (ℚ × ℚ)) (p : ℚ × ℚ) :
    feed s (l ++ [p]) = add_sample (feed s l) p.1 p.2 := by
  simp [feed, List.foldl_append]

/-- One eviction step of the windowing invariant, over two parallel lists
of equal length. -/
lemma drop_window_step {α β : Type} (A : List α) (B : List β)
    (hAB : B.length = A.length) (a : α) (b : β) (bs : ℕ) :
    (if (A.drop (A.length - bs) ++ [a]).length > bs
      then (B.drop (B.length - bs) ++ [b]).tail
      else B.drop (B.length - bs) ++ [b]) =
    (B ++ [b]).drop ((B ++ [b]).length - bs) := by
  by_cases hcase : bs ≤ A.length
  · rw [if_pos (by simp; omega)]
    by_cases h0 : bs = 0
    · subst h0
      have h1 : B.drop (B.length - 0) = [] := List.drop_eq_nil_of_le (by omega)
      have h2 : (B ++ [b]).drop ((B ++ [b]).length - 0) = [] :=
        List.drop_eq_nil_of_le (by omega)
      rw [h1, h2]
      rfl
    · have h1 : 1 ≤ (B.drop (B.length - bs)).length := by simp; omega
      calc (B.drop (B.length - bs) ++ [b]).tail
          = (B.drop (B.length - bs) ++ [b]).drop 1 := (List.drop_one _).symm
        _ = (B.drop (B.length - bs)).drop 1 ++ [b] :=
            List.drop_append_of_le_length h1
        _ = B.drop (B.length - bs + 1) ++ [b] := by
            rw [List.drop_drop]
        _ = (B ++ [b]).drop (B.length - bs + 1) :=
            (List.drop_append_of_le_length (by omega)).symm
        _ = (B ++ [b]).drop ((B ++ [b]).length - bs) := by
            congr 1
            simp
            omega
  · rw [if_neg (by simp; omega)]
    have h1 : B.length - bs = 0 := by omega
    have h2 : (B ++ [b]).length - bs = 0 := by simp; omega
    rw [h1, h2, List.drop_zero, List.drop_zero]

/-- The windowing invariant: feeding any list into a fresh processor
leaves exactly the last `buffer_size` samples, in arrival order. -/
lemma feed_init_eq (f bs : ℕ) (l : List (ℚ × ℚ)) :
    (feed (init f bs) l).raw_signal = (l.map Prod.fst).drop (l.length - bs) ∧
    (feed (init f bs) l).timestamps = (l.map Prod.snd).drop (l.length - bs) := by
  induction l using List.reverseRecOn with
  | nil => simp [feed, init]
  | append_singleton l p ih =>
    obtain ⟨ihr, iht⟩ := ih
    rw [feed_append]
    have hbs : (feed (init f bs) l).buffer_size = bs :=
      (feed_config l (init f bs)).2.1
    obtain ⟨hr, ht⟩ := add_sample_eq (feed (init f bs) l) p.1 p.2
    rw [hbs, ihr] at hr
    rw [hbs, ihr, iht] at ht
    constructor
    · rw [hr]
      have := drop_window_step (l.map Prod.fst) (l.map Prod.fst)
        (by simp) p.1 p.1 bs
      simp only [List.length_map] at this ⊢
      rw [this, List.map_append]
      simp
    · rw [ht]
      have := drop_window_step (l.map Prod.fst) (l.map Prod.snd)
        (by simp) p.1 p.2 bs
      simp only [List.length_map] at this ⊢
      rw [this, List.map_append]
      simp

/-- C3: after `buffer_size + k` calls of `add_sample` (k > 0) on a fresh
processor, the buffer holds exactly the last `buffer_size`
(value, timestamp) pairs, oldest first; each single `add_sample` appends
and, exactly when the length would exceed `buffer_size`, pops the oldest
entry of both lists. -/
theorem spec_c3 (f bs k : ℕ) (l : List (ℚ × ℚ)) (hk : 0 < k)
    (hl : l.length = bs + k) :
    (feed (init f bs) l).raw_signal = (l.drop k).map Prod.fst ∧
    (feed (init f bs) l).timestamps = (l.drop k).map Prod.snd ∧
    (feed (init f bs) l).raw_signal.length = bs ∧
    (∀ (s : RPPGProcessor) (v t : ℚ),
      (add_sample s v t).raw_signal =
        (if (s.raw_signal ++ [v]).length > s.buffer_size
          then (s.raw_signal ++ [v]).tail else s.raw_signal ++ [v]) ∧
      (add_sample s v t).timestamps =
        (if (s.raw_signal ++ [v]).length > s.buffer_size
          then (s.timestamps ++ [t]).tail else s.timestamps ++ [t])) := by
  obtain ⟨hr, ht⟩ := feed_init_eq f bs l
  have hdrop : l.length - bs = k := by omega
  rw [hdrop] at hr ht
  refine ⟨?_, ?_, ?_, fun s v t => add_sample_eq s v t⟩
  · rw [hr, List.map_drop]
  · rw [ht, List.map_drop]
  · rw [hr]
    simp [hl]

/-- Witness for C3 at a concrete run: capacity 2, three samples. -/
theorem spec_c3_witness :
    0 < 1 ∧ ([((1 : ℚ), (10 : ℚ)), (2, 20), (3, 30)]).length = 2 + 1 ∧
    ((feed (init 30 2) [((1 : ℚ), (10 : ℚ)), (2, 20), (3, 30)]).raw_signal =
        ([((1 : ℚ), (10 : ℚ)), (2, 20), (3, 30)].drop 1).map Prod.fst ∧
      (feed (init 30 2) [((1 : ℚ), (10 : ℚ)), (2, 20), (3, 30)]).timestamps =
        ([((1 : ℚ), (10 : ℚ)), (2, 20), (3, 30)].drop 1).map Prod.snd ∧
      (feed (init 30 2) [((1 : ℚ), (10 : ℚ)), (2, 20), (3, 30)]).raw_signal.length = 2 ∧
      (∀ (s : RPPGProcessor) (v t : ℚ),
        (add_sample s v t).raw_signal =
          (if (s.raw_signal ++ [v]).length > s.buffer_size
            then (s.raw_signal ++ [v]).tail else s.raw_signal ++ [v]) ∧
        (add_sample s v t).timestamps =
          (if (s.raw_signal ++ [v]).length > s.buffer_size
            then (s.timestamps ++ [t]).tail else s.timestamps ++ [t]))) :=
  ⟨by decide, by decide,
    spec_c3 30 2 1 [((1 : ℚ), (10 : ℚ)), (2, 20), (3, 30)] (by decide) (by decide)⟩

/-! Early-return behaviour of `process`. -/

/-- Any of the four pre-filtering exit conditions makes `process` return
`None` with the state untouched: buffer below `fps * 3`, resampled grid
below 10 points, the (caught) `np.interp` length-mismatch failure, or zero
variance after detrending. -/
lemma process_early (bBA : ℚ → ℚ → List ℝ × List ℝ)
    (ff : List ℝ → List ℝ → List ℝ → List ℝ) (ra : List ℝ → List ℝ)
    (s : RPPGProcessor)
    (h : s.raw_signal.length < s.fps * 3
      ∨ (s.timestamps ≠ [] ∧ numSamplesOf s < 10)
      ∨ (s.timestamps ≠ [] ∧ s.timestamps.length ≠ s.raw_signal.length)
      ∨ (0 < s.fps ∧ s.timestamps.length = s.raw_signal.length ∧
          varQ (detrendedOf s) = 0)) :
    process bBA ff ra s = .ok (none, s) := by
  unfold process
  rcases h with h1 | ⟨hts, hns⟩ | ⟨hts, hmm⟩ | ⟨hfps, hlen, hvar⟩
  · rw [if_pos h1]
  · by_cases hg : s.raw_signal.length < s.fps * 3
    · rw [if_pos hg]
    · rw [if_neg hg, if_neg hts, if_pos hns]
  · by_cases hg : s.raw_signal.length < s.fps * 3
    · rw [if_pos hg]
    · rw [if_neg hg, if_neg hts]
      by_cases hn : numSamplesOf s < 10
      · rw [if_pos hn]
      · rw [if_neg hn, if_pos hmm]
  · by_cases hg : s.raw_signal.length < s.fps * 3
    · rw [if_pos hg]
    · have hts : s.timestamps ≠ [] := by
        intro he
        apply hg
        have h0 : s.raw_signal.length = 0 := by
          rw [← hlen, he]
          rfl
        rw [h0]
        have : 0 < s.fps * 3 := by omega
        exact this
      rw [if_neg hg, if_neg hts]
      by_cases hn : numSamplesOf s < 10
      · rw [if_pos hn]
      · rw [if_neg hn, if_neg (not_not_intro hlen), if_pos hvar]

/-- C2: with fewer than `fps * 3` samples in the buffer, `process()`
returns `None` — no result, no exception, no state change — whatever the
buffered values and timestamps are. -/
theorem spec_c2 (bBA : ℚ → ℚ → List ℝ × List ℝ)
    (ff : List ℝ → List ℝ → List ℝ → List ℝ) (ra : List ℝ → List ℝ)
    (s : RPPGProcessor) (h : s.raw_signal.length < s.fps * 3) :
    process bBA ff ra s = .ok (none, s) :=
  process_early bBA ff ra s (Or.inl h)

/-- Witness for C2: a fresh default processor (empty buffer, `fps = 30`). -/
theorem spec_c2_witness :
    (init 30 300).raw_signal.length < (init 30 300).fps * 3 ∧
    process zeroBA idFF idAbs (init 30 300) = .ok (none, init 30 300) :=
  ⟨by decide, spec_c2 zeroBA idFF idAbs (init 30 300) (by decide)⟩

/-- C10: `last_snr` starts at `0.0` and the filtered-samples attribute
does not exist on a freshly constructed processor, and every `process()`
call that exits before the filtering stage (short buffer, short resampled
grid, caught interpolation failure, or zero variance) returns the state
unchanged — in particular `last_snr` and `latest_filtered_samples` are
untouched. -/
theorem spec_c10 (bBA : ℚ → ℚ → List ℝ × List ℝ)
    (ff : List ℝ → List ℝ → List ℝ → List ℝ) (ra : List ℝ → List ℝ)
    (f bs : ℕ) (s : RPPGProcessor)
    (h : s.raw_signal.length < s.fps * 3
      ∨ (s.timestamps ≠ [] ∧ numSamplesOf s < 10)
      ∨ (s.timestamps ≠ [] ∧ s.timestamps.length ≠ s.raw_signal.length)
      ∨ (0 < s.fps ∧ s.timestamps.length = s.raw_signal.length ∧
          varQ (detrendedOf s) = 0)) :
    (init f bs).last_snr = 0 ∧
    (init f bs).latest_filtered_samples = none ∧
    process bBA ff ra s = .ok (none, s) :=
  ⟨rfl, rfl, process_early bBA ff ra s h⟩

/-- Witness for C10: a fresh processor with `fps = 5`, exercising the
short-buffer exit. -/
theorem spec_c10_witness :
    ((init 5 10).raw_signal.length < (init 5 10).fps * 3
      ∨ ((init 5 10).timestamps ≠ [] ∧ numSamplesOf (init 5 10) < 10)
      ∨ ((init 5 10).timestamps ≠ [] ∧
          (init 5 10).timestamps.length ≠ (init 5 10).raw_signal.length)
      ∨ (0 < (init 5 10).fps ∧
          (init 5 10).timestamps.length = (init 5 10).raw_signal.length ∧
          varQ (detrendedOf (init 5 10)) = 0)) ∧
    ((init 5 10).last_snr = 0 ∧
      (init 5 10).latest_filtered_samples = none ∧
      process zeroBA idFF idAbs (init 5 10) = .ok (none, init 5 10)) :=
  ⟨Or.inl (by decide),
    spec_c10 zeroBA idFF idAbs 5 10 (init 5 10) (Or.inl (by decide))⟩

set_option maxHeartbeats 1000000 in
/-- C9: `process()` never mutates the sample buffer or the configuration —
every call, whether it returns a value or raises, leaves `raw_signal`,
`timestamps`, `fps`, `buffer_size`, `low_cut` and `high_cut` identical
(on the exception paths the whole state is moreover untouched, since the
first attribute assignment comes only after `filtfilt` succeeds) — and
`add_sample` mutates only the two buffer lists, leaving configuration,
`last_snr` and the stored filtered samples alone. -/
theorem spec_c9 (bBA : ℚ → ℚ → List ℝ × List ℝ)
    (ff : List ℝ → List ℝ → List ℝ → List ℝ) (ra : List ℝ → List ℝ)
    (s : RPPGProcessor) :
    (match process bBA ff ra s with
      | .ok (_, s1) =>
          s1.raw_signal = s.raw_signal ∧ s1.timestamps = s.timestamps ∧
          s1.fps = s.fps ∧ s1.buffer_size = s.buffer_size ∧
          s1.low_cut = s.low_cut ∧ s1.high_cut = s.high_cut
      | .error (_, s1) =>
          s1 = s ∧
          s1.raw_signal = s.raw_signal ∧ s1.timestamps = s.timestamps ∧
          s1.fps = s.fps ∧ s1.buffer_size = s.buffer_size ∧
          s1.low_cut = s.low_cut ∧ s1.high_cut = s.high_cut) ∧
    (∀ v t : ℚ,
      (add_sample s v t).fps = s.fps ∧
      (add_sample s v t).buffer_size = s.buffer_size ∧
      (add_sample s v t).low_cut = s.low_cut ∧
      (add_sample s v t).high_cut = s.high_cut ∧
      (add_sample s v t).last_snr = s.last_snr ∧
      (add_sample s v t).latest_filtered_samples = s.latest_filtered_samples) := by
  constructor
  · rcases hp : process bBA ff ra s with ⟨e, s1⟩ | ⟨r, s1⟩
    · unfold process at hp
      split_ifs at hp <;>
        (injection hp with hp1; injection hp1 with hr hs) <;>
          subst hs <;> simp
    · unfold process at hp
      split_ifs at hp <;>
        (injection hp with hp1; injection hp1 with hr hs) <;>
          subst hs <;> simp [afterFilterState, afterSpectralState]
  · intro v t
    exact add_sample_config s v t

/-! Flat-signal lemmas (claim C5). -/

lemma varQ_nonneg (y : List ℚ) : 0 ≤ varQ y := by
  unfold varQ
  apply div_nonneg
  · apply List.sum_nonneg
    intro x hx
    obtain ⟨v, _, rfl⟩ := List.mem_map.mp hx
    positivity
  · positivity

/-- `np.std x == 0` is equivalent to zero variance, which justifies the
rational zero-variance guard in `process`. -/
lemma stdOf_eq_zero_iff (y : List ℚ) : stdOf y = 0 ↔ varQ y = 0 := by
  unfold stdOf
  rw [Real.sqrt_eq_zero (by exact_mod_cast varQ_nonneg y)]
  exact_mod_cast Iff.rfl

lemma interpPt_const (c x : ℚ) :
    ∀ pts : List (ℚ × ℚ), pts ≠ [] → (∀ p ∈ pts, p.2 = c) →
      interpPt x pts = c := by
  intro pts
  induction pts with
  | nil => intro h; exact absurd rfl h
  | cons p tl ih =>
    intro _ hall
    cases tl with
    | nil => simpa [interpPt] using hall p (by simp)
    | cons q r =>
      rw [interpPt]
      split_ifs
      · exact hall p (by simp)
      · have hp := hall p (by simp)
        have hq := hall q (by simp)
        rw [hp, hq]
        simp
      · exact ih (by simp) (fun u hu => hall u (List.mem_cons_of_mem _ hu))

lemma getD_of_all_eq {y : List ℚ} {c : ℚ} {i : ℕ}
    (h : ∀ v ∈ y, v = c) (hi : i < y.length) : y.getD i 0 = c := by
  rw [List.getD_eq_getElem y 0 hi]
  exact h _ (List.getElem_mem hi)

lemma sVal_const {y : List ℚ} {c : ℚ} (h : ∀ v ∈ y, v = c) :
    sVal y = y.length * c := by
  unfold sVal
  rw [Finset.sum_congr rfl (fun i hi => getD_of_all_eq h (Finset.mem_range.mp hi))]
  rw [Finset.sum_const, Finset.card_range, nsmul_eq_mul]

lemma sIdxVal_const {y : List ℚ} {c : ℚ} (h : ∀ v ∈ y, v = c) :
    sIdxVal y = sIdx y.length * c := by
  unfold sIdxVal sIdx
  rw [Finset.sum_congr rfl
    (fun i hi => by rw [getD_of_all_eq h (Finset.mem_range.mp hi)])]
  rw [← Finset.sum_mul]

lemma lsSlope_const {y : List ℚ} {c : ℚ} (h : ∀ v ∈ y, v = c) :
    lsSlope y = 0 := by
  unfold lsSlope
  rw [sIdxVal_const h, sVal_const h]
  have hz : (y.length : ℚ) * (sIdx y.length * c) -
      sIdx y.length * ((y.length : ℚ) * c) = 0 := by ring
  rw [hz, zero_div]

lemma lsInter_const {y : List ℚ} {c : ℚ} (hne : y ≠ [])
    (h : ∀ v ∈ y, v = c) : lsInter y = c := by
  unfold lsInter
  rw [sVal_const h, lsSlope_const h]
  have hn : (y.length : ℚ) ≠ 0 := by
    have := List.length_pos.mpr hne
    exact_mod_cast this.ne'
  field_simp

lemma detrend_const {y : List ℚ} {c : ℚ} (h : ∀ v ∈ y, v = c) :
    ∀ u ∈ detrend y, u = 0 := by
  intro u hu
  unfold detrend at hu
  obtain ⟨i, hi, rfl⟩ := List.mem_map.mp hu
  have hiy : i < y.length := List.mem_range.mp hi
  have hne : y ≠ [] := by
    intro he
    rw [he] at hiy
    exact absurd hiy (by simp)
  rw [getD_of_all_eq h hiy, lsSlope_const h, lsInter_const hne h]
  ring

lemma varQ_of_all_zero {y : List ℚ} (h : ∀ v ∈ y, v = (0 : ℚ)) :
    varQ y = 0 := by
  unfold varQ
  have hm : meanQ y = 0 := by
    unfold meanQ
    rw [List.sum_eq_zero h, zero_div]
  have hz : (y.map (fun v => (v - meanQ y) ^ 2)).sum = 0 := by
    apply List.sum_eq_zero
    intro x hx
    obtain ⟨v, hv, rfl⟩ := List.mem_map.mp hx
    rw [h v hv, hm]
    ring
  rw [hz, zero_div]

/-- A perfectly flat input signal always has a zero-variance detrended
resampled series (the claim's worked example). -/
lemma flat_detrended_var (s : RPPGProcessor) (c : ℚ)
    (hflat : ∀ v ∈ s.raw_signal, v = c) : varQ (detrendedOf s) = 0 := by
  by_cases hz : (tNorm s).zip s.raw_signal = []
  · have hres : ∀ v ∈ resampledOf s, v = (0 : ℚ) := by
      intro v hv
      unfold resampledOf at hv
      obtain ⟨x, _, rfl⟩ := List.mem_map.mp hv
      rw [hz]
      rfl
    exact varQ_of_all_zero (by unfold detrendedOf; exact detrend_const hres)
  · have hres : ∀ v ∈ resampledOf s, v = c := by
      intro v hv
      unfold resampledOf at hv
      obtain ⟨x, _, rfl⟩ := List.mem_map.mp hv
      apply interpPt_const
      · exact hz
      · intro p hp
        exact hflat p.2 (List.of_mem_zip hp).2
    exact varQ_of_all_zero (by unfold detrendedOf; exact detrend_const hres)

/-- C5: every buffer whose detrended resampled series has exactly zero
standard deviation (for example any perfectly flat input signal, by
`flat_detrended_var`) makes `process()` return `None` with the state
untouched — it exits before the normalisation division and raises
nothing, so the divide-by-zero branch is unreachable.  The side
hypotheses encode the construction invariants: a positive configured
rate and the equal buffer lengths `add_sample` maintains. -/
theorem spec_c5 (bBA : ℚ → ℚ → List ℝ × List ℝ)
    (ff : List ℝ → List ℝ → List ℝ → List ℝ) (ra : List ℝ → List ℝ)
    (s : RPPGProcessor) (hfps : 0 < s.fps)
    (hlen : s.timestamps.length = s.raw_signal.length)
    (hstd : stdOf (detrendedOf s) = 0) :
    process bBA ff ra s = .ok (none, s) :=
  process_early bBA ff ra s
    (Or.inr (Or.inr (Or.inr ⟨hfps, hlen, (stdOf_eq_zero_iff _).mp hstd⟩)))

/-- Witness for C5: ten-plus seconds of the constant value 5 at `fps = 1`
— a flat signal instantiating the zero-standard-deviation hypothesis. -/
theorem spec_c5_witness :
    0 < (feed (init 1 300) [(5, 0), (5, 5000), (5, 12000)]).fps ∧
    (feed (init 1 300) [(5, 0), (5, 5000), (5, 12000)]).timestamps.length =
      (feed (init 1 300) [(5, 0), (5, 5000), (5, 12000)]).raw_signal.length ∧
    stdOf (detrendedOf (feed (init 1 300) [(5, 0), (5, 5000), (5, 12000)])) = 0 ∧
    process zeroBA idFF idAbs (feed (init 1 300) [(5, 0), (5, 5000), (5, 12000)]) =
      .ok (none, feed (init 1 300) [(5, 0), (5, 5000), (5, 12000)]) := by
  have hstd : stdOf (detrendedOf
      (feed (init 1 300) [(5, 0), (5, 5000), (5, 12000)])) = 0 :=
    (stdOf_eq_zero_iff _).mpr (flat_detrended_var _ 5 (by decide))
  exact ⟨by decide, by decide, hstd,
    spec_c5 zeroBA idFF idAbs _ (by decide) (by decide) hstd⟩

/-! Resampling-stage lemmas (claim C6). -/

lemma linspace_getD (T : ℚ) (n i : ℕ) (h : i < n) :
    (linspace T n).getD i 0 = T * i / ((n : ℚ) - 1) := by
  unfold linspace
  rw [List.getD_eq_getElem _ _ (by rw [List.length_map, List.length_range]; exact h)]
  rw [List.getElem_map, List.getElem_range]

/-- C6: under the minimum-size precondition the resampling stage
normalises the first timestamp to 0 after the millisecond-to-second
conversion, truncates `t[-1] * fps` (which is exactly `floor` for the
nonnegative spans produced by sorted timestamps), aborts with `None` below
10 grid points, and otherwise builds the evenly spaced `num_samples`-point
grid from 0 to `t[-1]` and maps pointwise linear interpolation of the raw
series over it (segment formula and segment-skipping rule included). -/
theorem spec_c6 (bBA : ℚ → ℚ → List ℝ × List ℝ)
    (ff : List ℝ → List ℝ → List ℝ → List ℝ) (ra : List ℝ → List ℝ)
    (s : RPPGProcessor)
    (h1 : s.fps * 3 ≤ s.raw_signal.length)
    (h2 : s.timestamps ≠ [])
    (h3 : 0 ≤ tLastOf s) :
    tNorm s = s.timestamps.map (fun u => (u - s.timestamps.headI) / 1000) ∧
    (tNorm s).headI = 0 ∧
    numSamplesOf s = ⌊tLastOf s * s.fps⌋ ∧
    (numSamplesOf s < 10 → process bBA ff ra s = .ok (none, s)) ∧
    (10 ≤ numSamplesOf s →
      (evenTimesOf s).length = (numSamplesOf s).toNat ∧
      (evenTimesOf s).getD 0 0 = 0 ∧
      (evenTimesOf s).getD ((numSamplesOf s).toNat - 1) 0 = tLastOf s ∧
      (∀ i : ℕ, i + 1 < (evenTimesOf s).length →
        (evenTimesOf s).getD (i + 1) 0 - (evenTimesOf s).getD i 0 =
          tLastOf s / (((numSamplesOf s).toNat : ℚ) - 1)) ∧
      resampledOf s =
        (evenTimesOf s).map (fun x => interpPt x ((tNorm s).zip s.raw_signal))) ∧
    (∀ (a b c d x : ℚ) (r : List (ℚ × ℚ)), a ≤ x → x ≤ c →
      interpPt x ((a, b) :: (c, d) :: r) = b + (d - b) * (x - a) / (c - a)) ∧
    (∀ (p q : ℚ × ℚ) (r : List (ℚ × ℚ)) (x : ℚ), p.1 ≤ q.1 → q.1 < x →
      interpPt x (p :: q :: r) = interpPt x (q :: r)) := by
  refine ⟨rfl, ?_, ?_, ?_, ?_, ?_, ?_⟩
  · rcases hts : s.timestamps with _ | ⟨a, tl⟩
    · exact absurd hts h2
    · unfold tNorm
      rw [hts]
      simp
  · unfold numSamplesOf pyInt
    rw [if_pos (mul_nonneg h3 (by positivity))]
  · intro hlt
    exact process_early bBA ff ra s (Or.inr (Or.inl ⟨h2, hlt⟩))
  · intro h10
    have hn : 10 ≤ (numSamplesOf s).toNat := by omega
    have hlen : (evenTimesOf s).length = (numSamplesOf s).toNat := by
      unfold evenTimesOf linspace
      rw [List.length_map, List.length_range]
    have hcast : (10 : ℚ) ≤ ((numSamplesOf s).toNat : ℚ) := by exact_mod_cast hn
    have hden : ((numSamplesOf s).toNat : ℚ) - 1 ≠ 0 := by linarith
    refine ⟨hlen, ?_, ?_, ?_, rfl⟩
    · rw [show evenTimesOf s = linspace (tLastOf s) (numSamplesOf s).toNat from rfl,
        linspace_getD _ _ 0 (by omega)]
      simp
    · rw [show evenTimesOf s = linspace (tLastOf s) (numSamplesOf s).toNat from rfl,
        linspace_getD _ _ _ (by omega)]
      rw [Nat.cast_sub (by omega)]
      rw [Nat.cast_one, mul_div_assoc, div_self hden, mul_one]
    · intro i hi
      rw [hlen] at hi
      rw [show evenTimesOf s = linspace (tLastOf s) (numSamplesOf s).toNat from rfl,
        linspace_getD _ _ _ hi, linspace_getD _ _ _ (by omega)]
      rw [div_sub_div_same]
      congr 1
      push_cast
      ring
  · intro a b c d x r hax hxc
    by_cases ha : x ≤ a
    · have hxa : x = a := le_antisymm ha hax
      subst hxa
      rw [interpPt, if_pos ha]
      simp
    · rw [interpPt, if_neg ha, if_pos hxc]
  · intro p q r x hpq hqx
    rw [interpPt, if_neg (not_le.mpr (lt_of_le_of_lt hpq hqx)),
      if_neg (not_le.mpr hqx)]

/-- Concrete six-sample buffer (one sample per half-second at `fps = 2`)
used by the C6 witness. -/
def c6s : RPPGProcessor :=
  feed (init 2 300) [(1, 0), (2, 1000), (3, 2000), (4, 3000), (5, 4000), (6, 5000)]

/-- The C6 witness state written out field by field. -/
lemma c6s_eq :
    c6s = ⟨2, 300, [1, 2, 3, 4, 5, 6], [0, 1000, 2000, 3000, 4000, 5000],
      [], 0, 3/4, 3, none⟩ := rfl

/-- Witness for C6 at the concrete buffer `c6s`. -/
theorem spec_c6_witness :
    c6s.fps * 3 ≤ c6s.raw_signal.length ∧ c6s.timestamps ≠ [] ∧
    0 ≤ tLastOf c6s ∧
    (tNorm c6s = c6s.timestamps.map (fun u => (u - c6s.timestamps.headI) / 1000) ∧
      (tNorm c6s).headI = 0 ∧
      numSamplesOf c6s = ⌊tLastOf c6s * c6s.fps⌋ ∧
      (numSamplesOf c6s < 10 → process zeroBA idFF idAbs c6s = .ok (none, c6s)) ∧
      (10 ≤ numSamplesOf c6s →
        (evenTimesOf c6s).length = (numSamplesOf c6s).toNat ∧
        (evenTimesOf c6s).getD 0 0 = 0 ∧
        (evenTimesOf c6s).getD ((numSamplesOf c6s).toNat - 1) 0 = tLastOf c6s ∧
        (∀ i : ℕ, i + 1 < (evenTimesOf c6s).length →
          (evenTimesOf c6s).getD (i + 1) 0 - (evenTimesOf c6s).getD i 0 =
            tLastOf c6s / (((numSamplesOf c6s).toNat : ℚ) - 1)) ∧
        resampledOf c6s =
          (evenTimesOf c6s).map (fun x => interpPt x ((tNorm c6s).zip c6s.raw_signal))) ∧
      (∀ (a b c d x : ℚ) (r : List (ℚ × ℚ)), a ≤ x → x ≤ c →
        interpPt x ((a, b) :: (c, d) :: r) = b + (d - b) * (x - a) / (c - a)) ∧
      (∀ (p q : ℚ × ℚ) (r : List (ℚ × ℚ)) (x : ℚ), p.1 ≤ q.1 → q.1 < x →
        interpPt x (p :: q :: r) = interpPt x (q :: r))) := by
  have h3 : 0 ≤ tLastOf c6s := by
    rw [c6s_eq]
    norm_num [tLastOf, tNorm, List.getLastD]
  exact ⟨by decide, by decide, h3,
    spec_c6 zeroBA idFF idAbs c6s (by decide) (by decide) h3⟩

/-! Spectral-stage lemmas (claims C7 and C8): `np.argmax` returns an
in-range index of a maximal element. -/

lemma amaxAux_spec (M : List ℝ) :
    ∀ (n k : ℕ) (b : ℕ × ℝ), M.length - k = n → b.1 < k → k ≤ M.length →
      M.getD b.1 0 = b.2 → (∀ y ∈ M.take k, y ≤ b.2) →
      (amaxAux (M.drop k) k b).1 < M.length ∧
      M.getD (amaxAux (M.drop k) k b).1 0 = (amaxAux (M.drop k) k b).2 ∧
      (∀ y ∈ M, y ≤ (amaxAux (M.drop k) k b).2) := by
  intro n
  induction n with
  | zero =>
    intro k b hn hbk hkM hget hseen
    have hk : k = M.length := by omega
    subst hk
    rw [List.drop_eq_nil_of_le le_rfl]
    rw [List.take_length] at hseen
    exact ⟨by simpa [amaxAux] using hbk, by simpa [amaxAux] using hget,
      by simpa [amaxAux] using hseen⟩
  | succ n ih =>
    intro k b hn hbk hkM hget hseen
    have hkl : k < M.length := by omega
    have hdrop : M.drop k = M[k] :: M.drop (k + 1) :=
      (List.getElem_cons_drop M k hkl).symm
    rw [hdrop, amaxAux]
    split_ifs with hlt
    · refine ih (k + 1) (k, M[k]) (by omega) (by omega) (by omega) ?_ ?_
      · exact List.getD_eq_getElem M 0 hkl
      · intro y hy
        rw [List.take_succ] at hy
        rcases List.mem_append.mp hy with hy1 | hy2
        · exact le_of_lt (lt_of_le_of_lt (hseen y hy1) hlt)
        · have hym : y = M[k] := by
            rw [List.getElem?_eq_getElem hkl] at hy2
            simpa using hy2
          simp [hym]
    · refine ih (k + 1) b (by omega) (by omega) (by omega) hget ?_
      intro y hy
      rw [List.take_succ] at hy
      rcases List.mem_append.mp hy with hy1 | hy2
      · exact hseen y hy1
      · have hym : y = M[k] := by
          rw [List.getElem?_eq_getElem hkl] at hy2
          simpa using hy2
        rw [hym]
        exact not_lt.mp hlt

lemma argmaxIdx_spec (M : List ℝ) (h : M ≠ []) :
    argmaxIdx M < M.length ∧ ∀ y ∈ M, y ≤ M.getD (argmaxIdx M) 0 := by
  rcases M with _ | ⟨x, xs⟩
  · exact absurd rfl h
  · have hspec := amaxAux_spec (x :: xs) ((x :: xs).length - 1) 1 (0, x) rfl
      (by omega) (by simp) (by simp) ?_
    · have hdrop : (x :: xs).drop 1 = xs := rfl
      rw [hdrop] at hspec
      have hidx : argmaxIdx (x :: xs) = (amaxAux xs 1 (0, x)).1 := rfl
      refine ⟨by rw [hidx]; exact hspec.1, ?_⟩
      intro y hy
      rw [hidx, hspec.2.1]
      exact hspec.2.2 y hy
    · intro y hy
      have : y = x := by simpa using hy
      simp [this]

lemma getD_map_snd (V : List (ℚ × ℝ)) (i : ℕ) (hi : i < V.length) :
    (V.map Prod.snd).getD i 0 = (V.getD i (0, 0)).2 := by
  rw [List.getD_eq_getElem _ _ (by simpa using hi),
    List.getD_eq_getElem _ _ hi, List.getElem_map]

lemma fst_mem_of_mem_zip {α β : Type} {p : α × β} {l1 : List α} {l2 : List β}
    (h : p ∈ l1.zip l2) : p.1 ∈ l1 := by
  obtain ⟨a, b⟩ := p
  exact (List.of_mem_zip h).1

lemma detrend_length (y : List ℚ) : (detrend y).length = y.length := by
  unfold detrend
  rw [List.length_map, List.length_range]

lemma normalizedOf_length (s : RPPGProcessor) :
    (normalizedOf s).length = (numSamplesOf s).toNat := by
  unfold normalizedOf
  rw [List.length_map]
  unfold detrendedOf
  rw [detrend_length]
  unfold resampledOf
  rw [List.length_map]
  unfold evenTimesOf linspace
  rw [List.length_map, List.length_range]

/-- The conjunction of the guards of `process` up to and including the
`filtfilt` length check: a call satisfying it runs the FFT/masking stage
(lines 78–90). -/
def reachesSpectral (s : RPPGProcessor) : Prop :=
  ¬ (s.raw_signal.length < s.fps * 3) ∧
  s.timestamps ≠ [] ∧
  ¬ (numSamplesOf s < 10) ∧
  s.timestamps.length = s.raw_signal.length ∧
  varQ (detrendedOf s) ≠ 0 ∧
  (s.fps : ℚ) / 2 ≠ 0 ∧
  (0 < lowOf s ∧ highOf s < 1) ∧
  15 < (normalizedOf s).length

/-- C7: with the constructed band limits `0.75`/`3.0`, every `Some` result
of `process()` is 60 times the frequency of a maximal-magnitude bin among
the bins restricted to `[0.75, 3.0]` Hz (so the result lies in
`[45, 180]` BPM); a `Some` result can only arise when at least one bin
falls in the band; and conversely a call that reaches the spectral stage
with no bin in the band returns `None` (with the filtered samples stored
by lines 75–76). -/
theorem spec_c7 (bBA : ℚ → ℚ → List ℝ × List ℝ)
    (ff : List ℝ → List ℝ → List ℝ → List ℝ) (ra : List ℝ → List ℝ)
    (s : RPPGProcessor) (hl : s.low_cut = 3/4) (hh : s.high_cut = 3) :
    (match process bBA ff ra s with
    | .ok (some b, _) =>
        b = peakFreqOf bBA ff ra s * 60 ∧
        (validOf bBA ff ra s).length ≠ 0 ∧
        (∀ p ∈ validOf bBA ff ra s, (3/4 : ℚ) ≤ p.1 ∧ p.1 ≤ 3) ∧
        (3/4 : ℚ) ≤ peakFreqOf bBA ff ra s ∧ peakFreqOf bBA ff ra s ≤ 3 ∧
        (∀ p ∈ validOf bBA ff ra s,
          p.2 ≤ ((validOf bBA ff ra s).getD (peakIdxOf bBA ff ra s) (0, 0)).2) ∧
        45 ≤ b ∧ b ≤ 180
    | _ => True) ∧
    (reachesSpectral s → (validOf bBA ff ra s).length = 0 →
      process bBA ff ra s = .ok (none, afterFilterState bBA ff s)) := by
  have hnone : reachesSpectral s → (validOf bBA ff ra s).length = 0 →
      process bBA ff ra s = .ok (none, afterFilterState bBA ff s) := by
    rintro ⟨g1, g2, g3, g4, g5, g6, g7, g8⟩ hempty
    unfold process
    rw [if_neg g1, if_neg g2, if_neg g3, if_neg (not_not_intro g4), if_neg g5,
      if_neg g6, if_neg (not_not_intro g7), if_neg (not_le.mpr g8),
      if_pos hempty]
  refine ⟨?_, hnone⟩
  rcases hp : process bBA ff ra s with e | ⟨r, s1⟩
  · trivial
  · rcases r with _ | b
    · trivial
    · have hmain : b = peakFreqOf bBA ff ra s * 60 ∧
          (validOf bBA ff ra s).length ≠ 0 := by
        unfold process at hp
        split_ifs at hp with h1 h2 h3 h4 h5 h6 h7 h8 h9 <;> simp at hp
        exact ⟨hp.1.symm, h9⟩
      obtain ⟨hb, hne⟩ := hmain
      have hVne : validOf bBA ff ra s ≠ [] := by
        intro he
        exact hne (by rw [he]; rfl)
      have hMne : (validOf bBA ff ra s).map Prod.snd ≠ [] := by
        simpa using hVne
      have hspec := argmaxIdx_spec _ hMne
      have hidx : peakIdxOf bBA ff ra s < (validOf bBA ff ra s).length := by
        have h0 := hspec.1
        rw [List.length_map] at h0
        exact h0
      have hmem : (validOf bBA ff ra s).getD (peakIdxOf bBA ff ra s) (0, 0) ∈
          validOf bBA ff ra s := by
        rw [List.getD_eq_getElem _ _ hidx]
        exact List.getElem_mem hidx
      have hband : ∀ p ∈ validOf bBA ff ra s, (3/4 : ℚ) ≤ p.1 ∧ p.1 ≤ 3 := by
        intro p hpV
        unfold validOf at hpV
        have hflt := (List.mem_filter.mp hpV).2
        rw [Bool.and_eq_true, decide_eq_true_eq, decide_eq_true_eq] at hflt
        rw [hl, hh] at hflt
        exact hflt
      have hpf : (3/4 : ℚ) ≤ peakFreqOf bBA ff ra s ∧
          peakFreqOf bBA ff ra s ≤ 3 := hband _ hmem
      have hmax : ∀ p ∈ validOf bBA ff ra s,
          p.2 ≤ ((validOf bBA ff ra s).getD (peakIdxOf bBA ff ra s) (0, 0)).2 := by
        intro p hpV
        have hy : p.2 ∈ (validOf bBA ff ra s).map Prod.snd :=
          List.mem_map_of_mem _ hpV
        have hle := hspec.2 p.2 hy
        have hpeak : peakIdxOf bBA ff ra s =
            argmaxIdx ((validOf bBA ff ra s).map Prod.snd) := rfl
        rw [← hpeak] at hle
        rwa [getD_map_snd _ _ hidx] at hle
      refine ⟨hb, hne, hband, hpf.1, hpf.2, hmax, ?_, ?_⟩
      · rw [hb]
        linarith [hpf.1]
      · rw [hb]
        linarith [hpf.2]

/-- Witness state for C7: 21 samples at 150 ms spacing on an `fps = 7`
processor — an impulse at the middle sample — reaching the spectral
stage (grid of 21 points coinciding with the sample instants). -/
def c7s : RPPGProcessor :=
  feed (init 7 300)
    [(0, 0), (0, 150), (0, 300), (0, 450), (0, 600), (0, 750), (0, 900),
      (0, 1050), (0, 1200), (0, 1350), (21, 1500), (0, 1650), (0, 1800),
      (0, 1950), (0, 2100), (0, 2250), (0, 2400), (0, 2550), (0, 2700),
      (0, 2850), (0, 3000)]

lemma c7s_eq : c7s = ⟨7, 300,
    [0, 0, 0, 0, 0, 0, 0, 0, 0, 0, 21, 0, 0, 0, 0, 0, 0, 0, 0, 0, 0],
    [0, 150, 300, 450, 600, 750, 900, 1050, 1200, 1350, 1500, 1650, 1800,
      1950, 2100, 2250, 2400, 2550, 2700, 2850, 3000],
    [], 0, 3/4, 3, none⟩ := rfl

lemma c7s_tnorm : tNorm c7s =
    [0, 3/20, 3/10, 9/20, 3/5, 3/4, 9/10, 21/20, 6/5, 27/20, 3/2, 33/20,
      9/5, 39/20, 21/10, 9/4, 12/5, 51/20, 27/10, 57/20, 3] := by
  rw [c7s_eq]
  norm_num [tNorm]

lemma c7s_tlast : tLastOf c7s = 3 := by
  unfold tLastOf
  rw [c7s_tnorm]
  rfl

lemma c7s_ns : numSamplesOf c7s = 21 := by
  unfold numSamplesOf pyInt
  rw [c7s_tlast, show c7s.fps = 7 from rfl]
  norm_num

set_option maxHeartbeats 1000000 in
lemma c7s_resampled : resampledOf c7s =
    [0, 0, 0, 0, 0, 0, 0, 0, 0, 0, 21, 0, 0, 0, 0, 0, 0, 0, 0, 0, 0] := by
  unfold resampledOf evenTimesOf linspace
  rw [c7s_ns, c7s_tlast, c7s_tnorm,
    show c7s.raw_signal =
      [0, 0, 0, 0, 0, 0, 0, 0, 0, 0, 21, 0, 0, 0, 0, 0, 0, 0, 0, 0, 0]
      from rfl,
    show ((21 : ℤ)).toNat = 21 from rfl,
    show List.range 21 =
      [0, 1, 2, 3, 4, 5, 6, 7, 8, 9, 10, 11, 12, 13, 14, 15, 16, 17, 18,
        19, 20] from rfl]
  norm_num [interpPt]

set_option maxHeartbeats 1000000 in
lemma c7s_var : varQ (detrendedOf c7s) ≠ 0 := by
  have hdet : detrendedOf c7s =
      [-1, -1, -1, -1, -1, -1, -1, -1, -1, -1, 20, -1, -1, -1, -1, -1, -1,
        -1, -1, -1, -1] := by
    unfold detrendedOf
    rw [c7s_resampled]
    norm_num [detrend, lsSlope, lsInter, sVal, sIdxVal, sIdx, sIdxSq,
      Finset.sum_range_succ, List.getD,
      show List.range 21 =
        [0, 1, 2, 3, 4, 5, 6, 7, 8, 9, 10, 11, 12, 13, 14, 15, 16, 17, 18,
          19, 20] from rfl]
  rw [hdet]
  norm_num [varQ, meanQ]

lemma c7s_reaches : reachesSpectral c7s := by
  refine ⟨?_, ?_, ?_, ?_, c7s_var, ?_, ⟨?_, ?_⟩, ?_⟩
  · rw [c7s_eq]
    decide
  · rw [c7s_eq]
    simp
  · rw [c7s_ns]
    decide
  · rw [c7s_eq]
    decide
  · rw [show c7s.fps = 7 from rfl]
    norm_num
  · unfold lowOf
    rw [show c7s.low_cut = 3/4 from rfl, show c7s.fps = 7 from rfl]
    norm_num
  · unfold highOf
    rw [show c7s.high_cut = 3 from rfl, show c7s.fps = 7 from rfl]
    norm_num
  · rw [normalizedOf_length, c7s_ns]
    decide

lemma c7s_empty : (validOf zeroBA nilFF idAbs c7s).length = 0 := rfl

/-- Witness for C7 at `c7s`: the state reaches the spectral stage, the
chosen kernels leave no bin in the band, and the instantiated theorem
(whose last clause then forces the `None` return with the filtered
samples stored) applies. -/
theorem spec_c7_witness :
    c7s.low_cut = 3/4 ∧ c7s.high_cut = 3 ∧
    reachesSpectral c7s ∧ (validOf zeroBA nilFF idAbs c7s).length = 0 ∧
    ((match process zeroBA nilFF idAbs c7s with
      | .ok (some b, _) =>
          b = peakFreqOf zeroBA nilFF idAbs c7s * 60 ∧
          (validOf zeroBA nilFF idAbs c7s).length ≠ 0 ∧
          (∀ p ∈ validOf zeroBA nilFF idAbs c7s, (3/4 : ℚ) ≤ p.1 ∧ p.1 ≤ 3) ∧
          (3/4 : ℚ) ≤ peakFreqOf zeroBA nilFF idAbs c7s ∧
          peakFreqOf zeroBA nilFF idAbs c7s ≤ 3 ∧
          (∀ p ∈ validOf zeroBA nilFF idAbs c7s,
            p.2 ≤ ((validOf zeroBA nilFF idAbs c7s).getD
              (peakIdxOf zeroBA nilFF idAbs c7s) (0, 0)).2) ∧
          45 ≤ b ∧ b ≤ 180
      | _ => True) ∧
      (reachesSpectral c7s → (validOf zeroBA nilFF idAbs c7s).length = 0 →
        process zeroBA nilFF idAbs c7s =
          .ok (none, afterFilterState zeroBA nilFF c7s))) :=
  ⟨rfl, rfl, c7s_reaches, c7s_empty, spec_c7 zeroBA nilFF idAbs c7s rfl rfl⟩

/-- C8: whenever `process()` returns a value, the stored `last_snr` equals
`signal_power / (total_power - signal_power)` — total power the sum of all
squared magnitudes, signal power the sum over the `±2`-bin window around
the first bin whose frequency is the detected peak frequency — clamped to
`0` for a non-positive denominator, and is therefore non-negative. -/
theorem spec_c8 (bBA : ℚ → ℚ → List ℝ × List ℝ)
    (ff : List ℝ → List ℝ → List ℝ → List ℝ) (ra : List ℝ → List ℝ)
    (s : RPPGProcessor) :
    match process bBA ff ra s with
    | .ok (some _, s1) =>
        s1.last_snr = snrOf bBA ff ra s ∧
        ((0 < totalPowerOf bBA ff ra s - signalPowerOf bBA ff ra s ∧
            snrOf bBA ff ra s =
              signalPowerOf bBA ff ra s /
                (totalPowerOf bBA ff ra s - signalPowerOf bBA ff ra s)) ∨
          (totalPowerOf bBA ff ra s - signalPowerOf bBA ff ra s ≤ 0 ∧
            snrOf bBA ff ra s = 0)) ∧
        totalPowerOf bBA ff ra s = (powerOf bBA ff ra s).sum ∧
        powerOf bBA ff ra s = (magsOf bBA ff ra s).map (fun m => m ^ 2) ∧
        signalPowerOf bBA ff ra s =
          (((powerOf bBA ff ra s).take
              (min (powerOf bBA ff ra s).length
                (fullPeakIdxOf bBA ff ra s + 3))).drop
            (fullPeakIdxOf bBA ff ra s - 2)).sum ∧
        (freqsOf bBA ff s).getD (fullPeakIdxOf bBA ff ra s) 0 =
          peakFreqOf bBA ff ra s ∧
        0 ≤ s1.last_snr
    | _ => True := by
  rcases hp : process bBA ff ra s with e | ⟨r, s1⟩
  · trivial
  · rcases r with _ | b
    · trivial
    · have hmain : s1 = afterSpectralState bBA ff ra s ∧
          (validOf bBA ff ra s).length ≠ 0 := by
        unfold process at hp
        split_ifs at hp with h1 h2 h3 h4 h5 h6 h7 h8 h9 <;> simp at hp
        exact ⟨hp.2.symm, h9⟩
      obtain ⟨hs1, hne⟩ := hmain
      have hsnr : s1.last_snr = snrOf bBA ff ra s := by
        rw [hs1]
        rfl
      have hsp : 0 ≤ signalPowerOf bBA ff ra s := by
        unfold signalPowerOf
        apply List.sum_nonneg
        intro x hx
        have hx2 : x ∈ powerOf bBA ff ra s :=
          List.mem_of_mem_take (List.mem_of_mem_drop hx)
        unfold powerOf at hx2
        obtain ⟨m, _, rfl⟩ := List.mem_map.mp hx2
        positivity
      have hVne : validOf bBA ff ra s ≠ [] := by
        intro he
        exact hne (by rw [he]; rfl)
      have hMne : (validOf bBA ff ra s).map Prod.snd ≠ [] := by
        simpa using hVne
      have hidx : peakIdxOf bBA ff ra s < (validOf bBA ff ra s).length := by
        have h0 := (argmaxIdx_spec _ hMne).1
        rw [List.length_map] at h0
        exact h0
      have hmem : (validOf bBA ff ra s).getD (peakIdxOf bBA ff ra s) (0, 0) ∈
          validOf bBA ff ra s := by
        rw [List.getD_eq_getElem _ _ hidx]
        exact List.getElem_mem hidx
      have hzip : (validOf bBA ff ra s).getD (peakIdxOf bBA ff ra s) (0, 0) ∈
          (freqsOf bBA ff s).zip (magsOf bBA ff ra s) := by
        unfold validOf at hmem
        exact (List.mem_filter.mp hmem).1
      have hfst : peakFreqOf bBA ff ra s ∈ freqsOf bBA ff s :=
        fst_mem_of_mem_zip hzip
      have hfound : fullPeakIdxOf bBA ff ra s < (freqsOf bBA ff s).length :=
        List.findIdx_lt_length_of_exists
          ⟨peakFreqOf bBA ff ra s, hfst, by simp⟩
      have hfreq : (freqsOf bBA ff s).getD (fullPeakIdxOf bBA ff ra s) 0 =
          peakFreqOf bBA ff ra s := by
        rw [List.getD_eq_getElem _ _ hfound]
        have hEq := List.findIdx_getElem (w := hfound)
        rwa [decide_eq_true_eq] at hEq
      have hform : (0 < totalPowerOf bBA ff ra s - signalPowerOf bBA ff ra s ∧
          snrOf bBA ff ra s =
            signalPowerOf bBA ff ra s /
              (totalPowerOf bBA ff ra s - signalPowerOf bBA ff ra s)) ∨
          (totalPowerOf bBA ff ra s - signalPowerOf bBA ff ra s ≤ 0 ∧
            snrOf bBA ff ra s = 0) := by
        unfold snrOf
        by_cases hpos :
            0 < totalPowerOf bBA ff ra s - signalPowerOf bBA ff ra s
        · exact Or.inl ⟨hpos, by rw [if_pos hpos]⟩
        · exact Or.inr ⟨not_lt.mp hpos, by rw [if_neg hpos]⟩
      refine ⟨hsnr, hform, rfl, rfl, rfl, hfreq, ?_⟩
      rw [hsnr]
      unfold snrOf
      split_ifs with hpos
      · exact div_nonneg hsp (le_of_lt hpos)
      · exact le_refl 0

/-! Exception propagation (claim C4). -/

/-- Counterexample state for C4: three samples spanning 11 seconds on a
processor configured with `fps = 1`, which passes every insufficient-data
guard and then reaches `butter` with a normalised high cutoff of `6 ≥ 1`. -/
def c4state : RPPGProcessor :=
  feed (init 1 300) [(0, 0), (100, 5500), (0, 11000)]

lemma c4state_eq :
    c4state = ⟨1, 300, [0, 100, 0], [0, 5500, 11000], [], 0, 3/4, 3, none⟩ :=
  rfl

lemma c4_tnorm : tNorm c4state = [0, 11/2, 11] := by
  rw [c4state_eq]
  norm_num [tNorm]

lemma c4_tlast : tLastOf c4state = 11 := by
  unfold tLastOf
  rw [c4_tnorm]
  rfl

lemma c4_ns : numSamplesOf c4state = 11 := by
  unfold numSamplesOf pyInt
  rw [c4_tlast, show c4state.fps = 1 from rfl]
  norm_num

lemma c4_resampled :
    resampledOf c4state = [0, 20, 40, 60, 80, 100, 80, 60, 40, 20, 0] := by
  unfold resampledOf evenTimesOf linspace
  rw [c4_ns, c4_tlast, c4_tnorm, show c4state.raw_signal = [0, 100, 0] from rfl,
    show ((11 : ℤ)).toNat = 11 from rfl,
    show List.range 11 = [0, 1, 2, 3, 4, 5, 6, 7, 8, 9, 10] from rfl]
  norm_num [interpPt]

lemma c4_var : ¬ varQ (detrendedOf c4state) = 0 := by
  have hdet : detrendedOf c4state =
      [-500/11, -280/11, -60/11, 160/11, 380/11, 600/11, 380/11, 160/11,
        -60/11, -280/11, -500/11] := by
    unfold detrendedOf
    rw [c4_resampled]
    norm_num [detrend, lsSlope, lsInter, sVal, sIdxVal, sIdx, sIdxSq,
      Finset.sum_range_succ, List.getD,
      show List.range 11 = [0, 1, 2, 3, 4, 5, 6, 7, 8, 9, 10] from rfl]
  rw [hdet]
  norm_num [varQ, meanQ]

/-- Counterexample for C4: on a processor built only through `add_sample`,
`process()` escapes with an uncaught `ValueError` (from the `butter`
critical-frequency validation), so internal numerical failures are not all
converted to `None`. -/
theorem spec_c4_counterexample :
    process zeroBA idFF idAbs c4state = .error (.valueError, c4state) := by
  have h1 : ¬ (c4state.raw_signal.length < c4state.fps * 3) := by
    rw [c4state_eq]
    decide
  have h2 : ¬ (c4state.timestamps = []) := by
    rw [c4state_eq]
    simp
  have h3 : ¬ (numSamplesOf c4state < 10) := by
    rw [c4_ns]
    decide
  have h4 : ¬ (c4state.timestamps.length ≠ c4state.raw_signal.length) := by
    rw [c4state_eq]
    decide
  have h6 : ¬ ((c4state.fps : ℚ) / 2 = 0) := by
    rw [show c4state.fps = 1 from rfl]
    norm_num
  have h7 : ¬ (0 < lowOf c4state ∧ highOf c4state < 1) := by
    rintro ⟨-, hb⟩
    rw [show highOf c4state = 6 from by
      unfold highOf
      rw [show c4state.high_cut = 3 from rfl, show c4state.fps = 1 from rfl]
      norm_num] at hb
    norm_num at hb
  unfold process
  rw [if_neg h1, if_neg h2, if_neg h3, if_neg h4, if_neg c4_var, if_neg h6,
    if_pos h7]

/-- C4 amended: only `np.interp` failures are caught; but with a
configured rate above 6 fps (so the Butterworth design is valid) and a
resampled grid longer than the `filtfilt` pad length of 15, `process()`
raises no exception. -/
theorem spec_c4_amended (bBA : ℚ → ℚ → List ℝ × List ℝ)
    (ff : List ℝ → List ℝ → List ℝ → List ℝ) (ra : List ℝ → List ℝ)
    (s : RPPGProcessor)
    (hts : s.timestamps.length = s.raw_signal.length)
    (hlow : s.low_cut = 3/4) (hhigh : s.high_cut = 3)
    (hfps : 6 < s.fps) (hns : 15 < numSamplesOf s) :
    ∀ (e : PyErr) (s1 : RPPGProcessor),
      process bBA ff ra s ≠ .error (e, s1) := by
  intro e s1
  by_cases h1 : s.raw_signal.length < s.fps * 3
  · unfold process
    rw [if_pos h1]
    simp
  · have hne2 : ¬ (s.timestamps = []) := by
      intro he
      have hz : s.raw_signal.length = 0 := by
        rw [← hts, he]
        rfl
      omega
    by_cases h3 : numSamplesOf s < 10
    · unfold process
      rw [if_neg h1, if_neg hne2, if_pos h3]
      simp
    · have h4 : ¬ (s.timestamps.length ≠ s.raw_signal.length) :=
        not_not_intro hts
      by_cases h5 : varQ (detrendedOf s) = 0
      · unfold process
        rw [if_neg h1, if_neg hne2, if_neg h3, if_neg h4, if_pos h5]
        simp
      · have hcast : (6 : ℚ) < (s.fps : ℚ) := by exact_mod_cast hfps
        have hposf : (0 : ℚ) < (s.fps : ℚ) / 2 := by linarith
        have h6 : ¬ ((s.fps : ℚ) / 2 = 0) := ne_of_gt hposf
        have h7 : ¬ ¬ (0 < lowOf s ∧ highOf s < 1) := by
          apply not_not_intro
          constructor
          · unfold lowOf
            rw [hlow]
            exact div_pos (by norm_num) hposf
          · unfold highOf
            rw [hhigh, div_lt_one hposf]
            linarith
        have h8 : ¬ ((normalizedOf s).length ≤ 15) := by
          rw [normalizedOf_length]
          omega
        unfold process
        rw [if_neg h1, if_neg hne2, if_neg h3, if_neg h4, if_neg h5, if_neg h6,
          if_neg h7, if_neg h8]
        by_cases h9 : (validOf bBA ff ra s).length = 0
        · rw [if_pos h9]
          simp
        · rw [if_neg h9]
          simp

/-- Witness state for the amended C4: 21 samples at exactly 8 per second
on an `fps = 7` processor (resampled grid of 17 > 15 points). -/
def c4wit : RPPGProcessor :=
  feed (init 7 300)
    [(0, 0), (1, 125), (2, 250), (3, 375), (4, 500), (5, 625), (6, 750),
      (7, 875), (8, 1000), (9, 1125), (10, 1250), (11, 1375), (12, 1500),
      (13, 1625), (14, 1750), (15, 1875), (16, 2000), (17, 2125),
      (18, 2250), (19, 2375), (20, 2500)]

lemma c4wit_eq :
    c4wit = ⟨7, 300,
      [0, 1, 2, 3, 4, 5, 6, 7, 8, 9, 10, 11, 12, 13, 14, 15, 16, 17, 18, 19, 20],
      [0, 125, 250, 375, 500, 625, 750, 875, 1000, 1125, 1250, 1375, 1500,
        1625, 1750, 1875, 2000, 2125, 2250, 2375, 2500],
      [], 0, 3/4, 3, none⟩ := rfl

lemma c4wit_ns : numSamplesOf c4wit = 17 := by
  have htn : tNorm c4wit =
      [0, 1/8, 1/4, 3/8, 1/2, 5/8, 3/4, 7/8, 1, 9/8, 5/4, 11/8, 3/2, 13/8,
        7/4, 15/8, 2, 17/8, 9/4, 19/8, 5/2] := by
    rw [c4wit_eq]
    norm_num [tNorm]
  unfold numSamplesOf pyInt tLastOf
  rw [htn, show c4wit.fps = 7 from rfl]
  norm_num

/-- Witness for the amended C4 at the concrete state `c4wit`. -/
theorem spec_c4_amended_witness :
    c4wit.timestamps.length = c4wit.raw_signal.length ∧
    c4wit.low_cut = 3/4 ∧ c4wit.high_cut = 3 ∧ 6 < c4wit.fps ∧
    15 < numSamplesOf c4wit ∧
    (∀ (e : PyErr) (s1 : RPPGProcessor),
      process zeroBA idFF idAbs c4wit ≠ .error (e, s1)) := by
  have hns : (15 : ℤ) < numSamplesOf c4wit := by
    rw [c4wit_ns]
    decide
  exact ⟨rfl, rfl, rfl, by decide, hns,
    spec_c4_amended zeroBA idFF idAbs c4wit rfl rfl rfl (by decide) hns⟩

end Rppg
